import Mathlib

/-!
Shallow embedding of `run_bot_with_autorestart.py`, a process-supervision
loop: spawn a child, wait for it to exit, classify the exit status, and
decide whether to stop, relaunch immediately, or relaunch after a pause.

The embedding models one pass through the `while True` body as a pure
function `iterate` of the current restart counter, the environment overlay,
the behavior of the launch attempt (exit code or raised fault), and the
point, if any, at which a KeyboardInterrupt arrives.  A whole run threads
the counter through `runAux`; `runTrace` adds the once-at-startup overlay
computation of lines 28-29.  Sleeps are recorded as events whose duration
is the literal argument of `time.sleep`, so one time unit is one second.
-/

namespace AutoRestart

/-- Environment mappings (`os.environ` copies) as association lists. -/
abbrev Env := List (String × String)

/-- Python dict assignment `e[k] = v`: drop any existing binding of `k`,
append the new one. -/
def envSet (k v : String) (e : Env) : Env :=
  e.filter (fun p => !(p.1 == k)) ++ [(k, v)]

/-- Python dict lookup `e[k]` as an `Option`. -/
def envGet (k : String) (e : Env) : Option String :=
  (List.find? (fun p => p.1 == k) e).map Prod.snd

/-- Lines 28-29: `env = os.environ.copy(); env["BOT_AUTO_RESTART"] = "1"`,
applied to a snapshot `environ` of the process environment. -/
def mkOverlay (environ : Env) : Env :=
  envSet "BOT_AUTO_RESTART" "1" environ

/-- Behavior of one launch attempt: either the child terminates and
`process.returncode` is the given code, or spawning/waiting raises an
exception carrying the given message (lines 67-70). -/
inductive ChildBehavior
  | exits (code : Int)
  | fault (msg : String)
deriving DecidableEq, Repr

/-- The blocking points of one loop body at which a KeyboardInterrupt can
arrive: the inter-restart pause `time.sleep(2)` (line 38), the blocked
`subprocess.run` call (lines 42-46), the crash pause `time.sleep(3)`
(line 61), and the fault-recovery pause `time.sleep(10)` (line 70). -/
inductive InterruptPoint
  | noInterrupt
  | atRestartPause
  | atWait
  | atCrashPause
  | atFaultPause
deriving DecidableEq, Repr

/-- Observable events of a run: a launch attempt carrying the environment
mapping passed to `subprocess.run`, a sleep of a given duration, and a
printed line. -/
inductive Event
  | launch (env : Env)
  | sleep (n : Nat)
  | printMsg (s : String)
deriving DecidableEq, Repr

/-- How one pass through the loop body ends: fall through / `continue`
back to the top, `break` out of the loop (line 54, after which the script
ends normally), `sys.exit` with a status (line 66), or an exception
propagating uncaught out of the loop. -/
inductive Decision
  | continueLoop
  | exitLoop
  | sysExit (code : Nat)
  | uncaught
deriving DecidableEq, Repr

/-- Line 36 print, with the f-string braces resolved. -/
def restartNoticeMsg (rc : Nat) : String :=
  "RESTARTING BOT (restart " ++ toString rc ++ ")"

/-- Line 53 print. -/
def cleanExitMsg : String :=
  "Bot exited cleanly (exit code 0). Stopping auto-restart."

/-- Line 57 print. -/
def restartingMsg (c : Int) : String :=
  "Bot exited with code " ++ toString c ++ ". Restarting..."

/-- Line 60 print. -/
def crashWaitMsg : String :=
  "(Waiting 3 seconds before restart...)"

/-- Line 65 print. -/
def shutdownMsg : String :=
  "Ctrl+C detected. Stopping bot and auto-restart wrapper."

/-- Line 68 print prefix; the fault description is appended. -/
def errorMsgHead : String :=
  "Error running bot: "

/-- Line 69 print. -/
def retryMsg : String :=
  "Retrying in 10 seconds..."

/-- Lines 34-38: the restarting notice and 2-second pause, taken only when
the incremented counter exceeds 1. -/
def prePause (rc : Nat) : List Event :=
  if rc > 1 then [Event.printMsg (restartNoticeMsg rc), Event.sleep 2] else []

/-- One pass through the `while True` body (lines 31-70).  `prev` is the
restart counter before the `restart_count += 1` of line 33, `env` the
mapping passed to `subprocess.run`, `beh` what the launch attempt does,
and `ip` where (if anywhere) a KeyboardInterrupt arrives.  An interrupt
point whose blocking call is not reached on the taken path behaves like no
interrupt.  Interrupts inside the `try` body are caught by the
`except KeyboardInterrupt` handler (lines 64-66); an interrupt during the
`time.sleep(10)` inside the `except Exception` handler (line 70) is not
caught by that same `try` statement and propagates out of the loop. -/
def iterate (prev : Nat) (env : Env) (beh : ChildBehavior) (ip : InterruptPoint) :
    List Event × Decision :=
  let rc := prev + 1
  if rc > 1 ∧ ip = InterruptPoint.atRestartPause then
    ([Event.printMsg (restartNoticeMsg rc), Event.printMsg shutdownMsg],
      Decision.sysExit 0)
  else if ip = InterruptPoint.atWait then
    (prePause rc ++ [Event.launch env, Event.printMsg shutdownMsg],
      Decision.sysExit 0)
  else
    match beh with
    | ChildBehavior.fault msg =>
      if ip = InterruptPoint.atFaultPause then
        (prePause rc ++ [Event.launch env,
          Event.printMsg (errorMsgHead ++ msg), Event.printMsg retryMsg],
          Decision.uncaught)
      else
        (prePause rc ++ [Event.launch env,
          Event.printMsg (errorMsgHead ++ msg), Event.printMsg retryMsg,
          Event.sleep 10],
          Decision.continueLoop)
    | ChildBehavior.exits c =>
      if c = 0 then
        (prePause rc ++ [Event.launch env, Event.printMsg cleanExitMsg],
          Decision.exitLoop)
      else if c = 1 then
        (prePause rc ++ [Event.launch env, Event.printMsg (restartingMsg c)],
          Decision.continueLoop)
      else if ip = InterruptPoint.atCrashPause then
        (prePause rc ++ [Event.launch env, Event.printMsg (restartingMsg c),
          Event.printMsg crashWaitMsg, Event.printMsg shutdownMsg],
          Decision.sysExit 0)
      else
        (prePause rc ++ [Event.launch env, Event.printMsg (restartingMsg c),
          Event.printMsg crashWaitMsg, Event.sleep 3],
          Decision.continueLoop)

/-- Iterating the loop body over a script of per-iteration inputs, starting
from restart counter `prev` and the fixed overlay `env`.  Returns the full
event trace and `some d` if the loop body ended the process or the loop
(decision `d`), or `none` if the script ran out while the loop was still
going. -/
def runAux (prev : Nat) (env : Env) :
    List (ChildBehavior × InterruptPoint) → List Event × Option Decision
  | [] => ([], none)
  | (beh, ip) :: rest =>
    if (iterate prev env beh ip).2 = Decision.continueLoop then
      ((iterate prev env beh ip).1 ++ (runAux (prev + 1) env rest).1,
        (runAux (prev + 1) env rest).2)
    else
      ((iterate prev env beh ip).1, some (iterate prev env beh ip).2)

/-- The whole program: the overlay is computed once, before the loop, from
the process environment as it stands at startup (lines 28-29), and the loop
then reuses that same mapping for every launch.  `environAt i` is the
supervisor process environment as it stands at the start of iteration `i`;
the source consults only `environAt 0`. -/
def runTrace (environAt : Nat → Env) (inputs : List (ChildBehavior × InterruptPoint)) :
    List Event × Option Decision :=
  runAux 0 (mkOverlay (environAt 0)) inputs

/-- The environments passed to the launch attempts of a trace, in order. -/
def launches : List Event → List Env
  | [] => []
  | Event.launch e :: es => e :: launches es
  | Event.sleep _ :: es => launches es
  | Event.printMsg _ :: es => launches es

/-- The sleep durations of a trace, in order. -/
def sleeps : List Event → List Nat
  | [] => []
  | Event.launch _ :: es => sleeps es
  | Event.sleep n :: es => n :: sleeps es
  | Event.printMsg _ :: es => sleeps es

/-- Number of launch attempts in a trace. -/
def launchCount (es : List Event) : Nat :=
  (launches es).length

/-- The trace strictly after the first launch attempt. -/
def afterFirstLaunch : List Event → List Event
  | [] => []
  | Event.launch _ :: es => es
  | Event.sleep _ :: es => afterFirstLaunch es
  | Event.printMsg _ :: es => afterFirstLaunch es

/-- Total time slept before the next launch attempt of a trace. -/
def sleepsUntilLaunch : List Event → Nat
  | [] => 0
  | Event.launch _ :: _ => 0
  | Event.sleep n :: es => n + sleepsUntilLaunch es
  | Event.printMsg _ :: es => sleepsUntilLaunch es

/-! Helper lemmas about the trace extractors. -/

lemma launches_append (xs ys : List Event) :
    launches (xs ++ ys) = launches xs ++ launches ys := by
  induction xs with
  | nil => simp [launches]
  | cons e t ih => cases e <;> simp [launches, ih]

lemma sleeps_append (xs ys : List Event) :
    sleeps (xs ++ ys) = sleeps xs ++ sleeps ys := by
  induction xs with
  | nil => simp [sleeps]
  | cons e t ih => cases e <;> simp [sleeps, ih]

lemma launches_prePause (rc : Nat) : launches (prePause rc) = [] := by
  by_cases h : rc > 1 <;> simp [prePause, h, launches]

lemma afterFirstLaunch_append_of_noLaunch (xs ys : List Event)
    (h : launches xs = []) :
    afterFirstLaunch (xs ++ ys) = afterFirstLaunch ys := by
  induction xs with
  | nil => simp
  | cons e t ih =>
    cases e with
    | launch env => simp [launches] at h
    | sleep n => simp [launches] at h; simp [afterFirstLaunch, ih h]
    | printMsg s => simp [launches] at h; simp [afterFirstLaunch, ih h]

lemma sleepsUntilLaunch_append_of_noLaunch (xs ys : List Event)
    (h : launches xs = []) :
    sleepsUntilLaunch (xs ++ ys) = (sleeps xs).sum + sleepsUntilLaunch ys := by
  induction xs with
  | nil => simp [sleeps]
  | cons e t ih =>
    cases e with
    | launch env => simp [launches] at h
    | sleep n =>
      simp [launches] at h
      simp [sleepsUntilLaunch, sleeps, ih h]; omega
    | printMsg s =>
      simp [launches] at h
      simp [sleepsUntilLaunch, sleeps, ih h]

lemma sleeps_prePause_sum (rc : Nat) (h : rc > 1) :
    (sleeps (prePause rc)).sum = 2 := by
  simp [prePause, h, sleeps]

/-! Helper lemmas about one pass through the loop body. -/

/-- With no interrupt, the loop body always performs exactly one launch
attempt, preceded by the (possibly empty) inter-restart pause and followed
only by prints and sleeps. -/
lemma iterate_shape (prev : Nat) (env : Env) (beh : ChildBehavior) :
    ∃ s, (iterate prev env beh InterruptPoint.noInterrupt).1 =
      prePause (prev + 1) ++ Event.launch env :: s ∧ launches s = [] := by
  cases beh with
  | fault msg =>
    refine ⟨[Event.printMsg (errorMsgHead ++ msg), Event.printMsg retryMsg,
      Event.sleep 10], by simp [iterate], by simp [launches]⟩
  | exits c =>
    by_cases h0 : c = 0
    · exact ⟨[Event.printMsg cleanExitMsg], by simp [iterate, h0], by simp [launches]⟩
    · by_cases h1 : c = 1
      · exact ⟨[Event.printMsg (restartingMsg c)],
          by simp [iterate, h0, h1], by simp [launches]⟩
      · exact ⟨[Event.printMsg (restartingMsg c), Event.printMsg crashWaitMsg,
          Event.sleep 3], by simp [iterate, h0, h1], by simp [launches]⟩

/-- With no interrupt, the launch environments of one loop body are
exactly the one overlay it was given. -/
lemma launches_iterate (prev : Nat) (env : Env) (beh : ChildBehavior) :
    launches (iterate prev env beh InterruptPoint.noInterrupt).1 = [env] := by
  obtain ⟨s, hs, hno⟩ := iterate_shape prev env beh
  rw [hs, launches_append, launches_prePause]
  simp [launches, hno]

/-- Every launch environment of one loop body, under any interrupt point,
is the overlay it was given. -/
lemma launches_iterate_sub (prev : Nat) (env : Env) (beh : ChildBehavior)
    (ip : InterruptPoint) :
    launches (iterate prev env beh ip).1 = [] ∨
    launches (iterate prev env beh ip).1 = [env] := by
  cases ip with
  | noInterrupt => exact Or.inr (launches_iterate prev env beh)
  | atRestartPause =>
    by_cases hp : prev + 1 > 1
    · left; simp [iterate, hp, launches]
    · right
      cases beh with
      | fault msg => simp [iterate, hp, launches_append, launches_prePause, launches]
      | exits c =>
        by_cases h3 : c = 0
        · simp [iterate, hp, h3, launches_append, launches_prePause, launches]
        · by_cases h4 : c = 1 <;>
            simp [iterate, hp, h3, h4, launches_append, launches_prePause, launches]
  | atWait =>
    right; simp [iterate, launches_append, launches_prePause, launches]
  | atCrashPause =>
    right
    cases beh with
    | fault msg => simp [iterate, launches_append, launches_prePause, launches]
    | exits c =>
      by_cases h3 : c = 0
      · simp [iterate, h3, launches_append, launches_prePause, launches]
      · by_cases h4 : c = 1 <;>
          simp [iterate, h3, h4, launches_append, launches_prePause, launches]
  | atFaultPause =>
    right
    cases beh with
    | fault msg => simp [iterate, launches_append, launches_prePause, launches]
    | exits c =>
      by_cases h3 : c = 0
      · simp [iterate, h3, launches_append, launches_prePause, launches]
      · by_cases h4 : c = 1 <;>
          simp [iterate, h3, h4, launches_append, launches_prePause, launches]

/-- With no interrupt and a child behavior other than a clean exit, the
loop body always falls through to the next iteration. -/
lemma iterate_decision_continue (prev : Nat) (env : Env) (beh : ChildBehavior)
    (hb : beh ≠ ChildBehavior.exits 0) :
    (iterate prev env beh InterruptPoint.noInterrupt).2 = Decision.continueLoop := by
  cases beh with
  | fault msg => simp [iterate]
  | exits c =>
    have h0 : c ≠ 0 := fun h => hb (by rw [h])
    by_cases h1 : c = 1 <;> simp [iterate, h0, h1]

/-- With no interrupt, the loop body either breaks out of the loop or
falls through; it never ends the process. -/
lemma iterate_noInterrupt_decision (prev : Nat) (env : Env) (beh : ChildBehavior) :
    (iterate prev env beh InterruptPoint.noInterrupt).2 = Decision.exitLoop ∨
    (iterate prev env beh InterruptPoint.noInterrupt).2 = Decision.continueLoop := by
  cases beh with
  | fault msg => right; simp [iterate]
  | exits c =>
    by_cases h0 : c = 0
    · left; simp [iterate, h0]
    · right; by_cases h1 : c = 1 <;> simp [iterate, h0, h1]

/-- The loop body breaks out of the loop only on a clean child exit. -/
lemma iterate_exitLoop_imp (prev : Nat) (env : Env) (beh : ChildBehavior)
    (ip : InterruptPoint)
    (h : (iterate prev env beh ip).2 = Decision.exitLoop) :
    beh = ChildBehavior.exits 0 := by
  cases beh with
  | fault msg =>
    exfalso
    cases ip <;> by_cases hp : prev + 1 > 1 <;> simp [iterate, hp] at h
  | exits c =>
    by_cases h0 : c = 0
    · rw [h0]
    · exfalso
      by_cases h1 : c = 1 <;> cases ip <;> by_cases hp : prev + 1 > 1 <;>
        simp [iterate, hp, h0, h1] at h

/-- The loop body ends the process (via `sys.exit` or an uncaught
exception) only when an interrupt arrived. -/
lemma iterate_terminal_imp (prev : Nat) (env : Env) (beh : ChildBehavior)
    (ip : InterruptPoint)
    (h : (iterate prev env beh ip).2 = Decision.sysExit 0 ∨
      (iterate prev env beh ip).2 = Decision.uncaught) :
    ip ≠ InterruptPoint.noInterrupt := by
  intro hip
  subst hip
  rcases iterate_noInterrupt_decision prev env beh with hd | hd <;>
    rw [hd] at h <;> simp at h

/-- A script of interrupt-free, never-cleanly-exiting iterations leaves the
loop still running, from any starting counter. -/
lemma runAux_none_of (env : Env) (inputs : List (ChildBehavior × InterruptPoint))
    (h : ∀ p ∈ inputs, p.2 = InterruptPoint.noInterrupt ∧
      p.1 ≠ ChildBehavior.exits 0) :
    ∀ prev, (runAux prev env inputs).2 = none := by
  induction inputs with
  | nil => intro prev; rfl
  | cons q rest ih =>
    intro prev
    obtain ⟨b, i⟩ := q
    have hq := h (b, i) (List.mem_cons_self _ _)
    have hqi : i = InterruptPoint.noInterrupt := hq.1
    have hqb : b ≠ ChildBehavior.exits 0 := hq.2
    subst hqi
    have hd : (iterate prev env b InterruptPoint.noInterrupt).2 =
        Decision.continueLoop := iterate_decision_continue prev env b hqb
    have ih2 := ih (fun p hp => h p (List.mem_cons_of_mem _ hp)) (prev + 1)
    simp [runAux, hd, ih2]

/-- The trace of a run starts with the events of its first loop body. -/
lemma runAux_cons_events (prev : Nat) (env : Env) (b : ChildBehavior)
    (i : InterruptPoint) (rest : List (ChildBehavior × InterruptPoint)) :
    ∃ t, (runAux prev env ((b, i) :: rest)).1 = (iterate prev env b i).1 ++ t := by
  by_cases hd : (iterate prev env b i).2 = Decision.continueLoop
  · exact ⟨(runAux (prev + 1) env rest).1, by simp [runAux, hd]⟩
  · exact ⟨[], by simp [runAux, hd]⟩

/-- In a run whose first iteration falls through, the trace after the
first launch consists of the rest of that iteration followed by the next
pause and launch of the next iteration. -/
lemma afterFirstLaunch_two_iter (prev : Nat) (env : Env) (b₁ b₂ : ChildBehavior)
    (rest : List (ChildBehavior × InterruptPoint)) (s₁ : List Event)
    (hs : (iterate prev env b₁ InterruptPoint.noInterrupt).1 =
      prePause (prev + 1) ++ Event.launch env :: s₁)
    (hd : (iterate prev env b₁ InterruptPoint.noInterrupt).2 = Decision.continueLoop) :
    ∃ t, afterFirstLaunch (runAux prev env
        ((b₁, InterruptPoint.noInterrupt) :: (b₂, InterruptPoint.noInterrupt) :: rest)).1 =
      s₁ ++ (prePause (prev + 1 + 1) ++ Event.launch env :: t) := by
  obtain ⟨s₂, hs₂, -⟩ := iterate_shape (prev + 1) env b₂
  obtain ⟨t₂, ht₂⟩ := runAux_cons_events (prev + 1) env b₂ InterruptPoint.noInterrupt rest
  refine ⟨s₂ ++ t₂, ?_⟩
  have htrace : (runAux prev env ((b₁, InterruptPoint.noInterrupt) ::
      (b₂, InterruptPoint.noInterrupt) :: rest)).1 =
      (iterate prev env b₁ InterruptPoint.noInterrupt).1 ++
        (runAux (prev + 1) env ((b₂, InterruptPoint.noInterrupt) :: rest)).1 := by
    simp [runAux, hd]
  rw [htrace, ht₂, hs₂, hs]
  have hassoc : (prePause (prev + 1) ++ Event.launch env :: s₁) ++
      ((prePause (prev + 1 + 1) ++ Event.launch env :: s₂) ++ t₂) =
      prePause (prev + 1) ++ Event.launch env ::
        (s₁ ++ ((prePause (prev + 1 + 1) ++ Event.launch env :: s₂) ++ t₂)) := by
    simp
  rw [hassoc, afterFirstLaunch_append_of_noLaunch _ _ (launches_prePause _)]
  simp [afterFirstLaunch]

/-- Total delay between reading the first exit status and the next launch:
the sleeps remaining in the first iteration plus the 2-second pause of the
following iteration. -/
lemma delay_two_iter (prev : Nat) (env : Env) (b₁ b₂ : ChildBehavior)
    (rest : List (ChildBehavior × InterruptPoint)) (s₁ : List Event)
    (hs : (iterate prev env b₁ InterruptPoint.noInterrupt).1 =
      prePause (prev + 1) ++ Event.launch env :: s₁)
    (hno : launches s₁ = [])
    (hd : (iterate prev env b₁ InterruptPoint.noInterrupt).2 = Decision.continueLoop) :
    sleepsUntilLaunch (afterFirstLaunch (runAux prev env
        ((b₁, InterruptPoint.noInterrupt) :: (b₂, InterruptPoint.noInterrupt) :: rest)).1) =
      (sleeps s₁).sum + 2 := by
  obtain ⟨t, ht⟩ := afterFirstLaunch_two_iter prev env b₁ b₂ rest s₁ hs hd
  rw [ht, sleepsUntilLaunch_append_of_noLaunch _ _ hno,
    sleepsUntilLaunch_append_of_noLaunch _ _ (launches_prePause _),
    sleeps_prePause_sum _ (by omega)]
  simp [sleepsUntilLaunch]

/-- In a run whose first iteration falls through, a second launch attempt
does occur after the first one. -/
lemma launch_after_first (prev : Nat) (env : Env) (b₁ b₂ : ChildBehavior)
    (rest : List (ChildBehavior × InterruptPoint)) (s₁ : List Event)
    (hs : (iterate prev env b₁ InterruptPoint.noInterrupt).1 =
      prePause (prev + 1) ++ Event.launch env :: s₁)
    (hd : (iterate prev env b₁ InterruptPoint.noInterrupt).2 = Decision.continueLoop) :
    Event.launch env ∈ afterFirstLaunch (runAux prev env
        ((b₁, InterruptPoint.noInterrupt) :: (b₂, InterruptPoint.noInterrupt) :: rest)).1 := by
  obtain ⟨t, ht⟩ := afterFirstLaunch_two_iter prev env b₁ b₂ rest s₁ hs hd
  rw [ht]
  simp

/-- Looking up a key just assigned by dict assignment yields the assigned
value. -/
lemma envGet_envSet_self (k v : String) (e : Env) :
    envGet k (envSet k v e) = some v := by
  induction e with
  | nil => simp [envGet, envSet, List.find?]
  | cons p t ih =>
    by_cases h : p.1 == k
    · have hset : envSet k v (p :: t) = envSet k v t := by
        simp [envSet, List.filter, h]
      rw [hset, ih]
    · have hset : envSet k v (p :: t) = p :: envSet k v t := by
        simp [envSet, List.filter, h]
      rw [hset]
      simpa [envGet, List.find?, h] using ih

/-- Every launch environment of a whole run is the one overlay the run was
given: the loop never changes it. -/
lemma launches_runAux (env : Env) (inputs : List (ChildBehavior × InterruptPoint)) :
    ∀ prev, ∀ e ∈ launches (runAux prev env inputs).1, e = env := by
  induction inputs with
  | nil => intro prev e he; simp [runAux, launches] at he
  | cons q rest ih =>
    intro prev e he
    obtain ⟨b, i⟩ := q
    by_cases hd : (iterate prev env b i).2 = Decision.continueLoop
    · simp only [runAux, hd, if_pos, launches_append, List.mem_append] at he
      rcases he with he | he
      · rcases launches_iterate_sub prev env b i with hL | hL <;> rw [hL] at he
        · simp at he
        · simpa using he
      · exact ih (prev + 1) e he
    · simp only [runAux, hd, if_neg, if_false] at he
      rcases launches_iterate_sub prev env b i with hL | hL <;> rw [hL] at he
      · simp at he
      · simpa using he

/-! Claim theorems. -/

/-- C1: if a launched child terminates with exit status 0 (and no interrupt
arrives), the loop body prints the confirmation message and breaks out of
the loop; in a whole run whose first child exits with 0, exactly one launch
attempt is observed in total, whatever would have come afterwards. -/
theorem C1_clean_exit_stops (prev : Nat) (env : Env) (environAt : Nat → Env)
    (rest : List (ChildBehavior × InterruptPoint)) :
    (iterate prev env (ChildBehavior.exits 0) InterruptPoint.noInterrupt).2 =
      Decision.exitLoop ∧
    Event.printMsg cleanExitMsg ∈
      (iterate prev env (ChildBehavior.exits 0) InterruptPoint.noInterrupt).1 ∧
    launchCount (runTrace environAt
      ((ChildBehavior.exits 0, InterruptPoint.noInterrupt) :: rest)).1 = 1 := by
  refine ⟨by simp [iterate], ?_, ?_⟩
  · by_cases hp : prev + 1 > 1 <;> simp [iterate, prePause, hp]
  · have hd : (iterate 0 (mkOverlay (environAt 0)) (ChildBehavior.exits 0)
        InterruptPoint.noInterrupt).2 = Decision.exitLoop := by simp [iterate]
    have htr : (runTrace environAt
        ((ChildBehavior.exits 0, InterruptPoint.noInterrupt) :: rest)).1 =
        (iterate 0 (mkOverlay (environAt 0)) (ChildBehavior.exits 0)
          InterruptPoint.noInterrupt).1 := by
      simp [runTrace, runAux, hd]
    rw [launchCount, htr, launches_iterate]
    rfl

/-- C2 as stated is false at a concrete run: after the first child exits
with status 1, the supervisor sleeps 2 seconds (the inter-restart pause of
line 38) before the next launch, so a delay of 2 or more time units does
occur between reading the exit status and the next launch. -/
theorem C2_exit1_delay_counterexample :
    sleepsUntilLaunch (afterFirstLaunch (runTrace (fun _ => [])
      [(ChildBehavior.exits 1, InterruptPoint.noInterrupt),
       (ChildBehavior.exits 0, InterruptPoint.noInterrupt)]).1) = 2 ∧
    2 ≤ sleepsUntilLaunch (afterFirstLaunch (runTrace (fun _ => [])
      [(ChildBehavior.exits 1, InterruptPoint.noInterrupt),
       (ChildBehavior.exits 0, InterruptPoint.noInterrupt)]).1) := by
  decide

/-- C2 amended: after a child exit with status 1, the loop body falls
through with exactly one launch attempt behind it, the relaunch does
happen, and the total delay between reading the exit status and the next
launch is exactly the 2-second inter-restart pause — in particular
strictly less than the 3-second crash delay, but not less than 2. -/
theorem C2_exit1_fast_relaunch (prev : Nat) (env : Env) (b₂ : ChildBehavior)
    (rest : List (ChildBehavior × InterruptPoint)) :
    (iterate prev env (ChildBehavior.exits 1) InterruptPoint.noInterrupt).2 =
      Decision.continueLoop ∧
    launchCount (iterate prev env (ChildBehavior.exits 1)
      InterruptPoint.noInterrupt).1 = 1 ∧
    sleepsUntilLaunch (afterFirstLaunch (runAux prev env
      ((ChildBehavior.exits 1, InterruptPoint.noInterrupt) ::
       (b₂, InterruptPoint.noInterrupt) :: rest)).1) = 2 ∧
    Event.launch env ∈ afterFirstLaunch (runAux prev env
      ((ChildBehavior.exits 1, InterruptPoint.noInterrupt) ::
       (b₂, InterruptPoint.noInterrupt) :: rest)).1 := by
  have hd : (iterate prev env (ChildBehavior.exits 1) InterruptPoint.noInterrupt).2 =
      Decision.continueLoop := by simp [iterate]
  have hs : (iterate prev env (ChildBehavior.exits 1) InterruptPoint.noInterrupt).1 =
      prePause (prev + 1) ++ Event.launch env ::
        [Event.printMsg (restartingMsg 1)] := by
    simp [iterate]
  refine ⟨hd, ?_, ?_, ?_⟩
  · rw [launchCount, launches_iterate]; rfl
  · have h := delay_two_iter prev env (ChildBehavior.exits 1) b₂ rest
      [Event.printMsg (restartingMsg 1)] hs (by simp [launches]) hd
    simpa [sleeps] using h
  · exact launch_after_first prev env (ChildBehavior.exits 1) b₂ rest
      [Event.printMsg (restartingMsg 1)] hs hd

/-- C3: after a child exit with a status other than 0 or 1, the loop body
falls through having slept 3 seconds (line 61), the relaunch does happen,
and the total delay before the next launch is at least 3 time units. -/
theorem C3_crash_throttled_relaunch (prev : Nat) (env : Env) (c : Int)
    (b₂ : ChildBehavior) (rest : List (ChildBehavior × InterruptPoint))
    (h0 : c ≠ 0) (h1 : c ≠ 1) :
    (iterate prev env (ChildBehavior.exits c) InterruptPoint.noInterrupt).2 =
      Decision.continueLoop ∧
    Event.sleep 3 ∈ (iterate prev env (ChildBehavior.exits c)
      InterruptPoint.noInterrupt).1 ∧
    3 ≤ sleepsUntilLaunch (afterFirstLaunch (runAux prev env
      ((ChildBehavior.exits c, InterruptPoint.noInterrupt) ::
       (b₂, InterruptPoint.noInterrupt) :: rest)).1) ∧
    Event.launch env ∈ afterFirstLaunch (runAux prev env
      ((ChildBehavior.exits c, InterruptPoint.noInterrupt) ::
       (b₂, InterruptPoint.noInterrupt) :: rest)).1 := by
  have hd : (iterate prev env (ChildBehavior.exits c) InterruptPoint.noInterrupt).2 =
      Decision.continueLoop := by simp [iterate, h0, h1]
  have hs : (iterate prev env (ChildBehavior.exits c) InterruptPoint.noInterrupt).1 =
      prePause (prev + 1) ++ Event.launch env ::
        [Event.printMsg (restartingMsg c), Event.printMsg crashWaitMsg,
         Event.sleep 3] := by
    simp [iterate, h0, h1]
  refine ⟨hd, ?_, ?_, ?_⟩
  · rw [hs]; simp
  · have h := delay_two_iter prev env (ChildBehavior.exits c) b₂ rest
      [Event.printMsg (restartingMsg c), Event.printMsg crashWaitMsg,
       Event.sleep 3] hs (by simp [launches]) hd
    rw [h]
    simp [sleeps]
  · exact launch_after_first prev env (ChildBehavior.exits c) b₂ rest
      [Event.printMsg (restartingMsg c), Event.printMsg crashWaitMsg,
       Event.sleep 3] hs hd

/-- C3 witness: exit code 137 is neither 0 nor 1, and the crash relaunch
delay bound holds there. -/
theorem C3_crash_throttled_relaunch_witness :
    ((137 : Int) ≠ 0 ∧ (137 : Int) ≠ 1) ∧
    3 ≤ sleepsUntilLaunch (afterFirstLaunch (runAux 0 []
      ((ChildBehavior.exits 137, InterruptPoint.noInterrupt) ::
       (ChildBehavior.exits 0, InterruptPoint.noInterrupt) :: [])).1) :=
  ⟨by decide,
    (C3_crash_throttled_relaunch 0 [] 137 (ChildBehavior.exits 0) []
      (by decide) (by decide)).2.2.1⟩

/-- C10: after a crash exit (status neither 0 nor 1), the total pause
between reading the exit status and the next launch is exactly 5 time
units: the 3-second crash delay of line 61 and the 2-second inter-restart
pause of line 38 both occur in that window. -/
theorem C10_crash_total_pause (prev : Nat) (env : Env) (c : Int)
    (b₂ : ChildBehavior) (rest : List (ChildBehavior × InterruptPoint))
    (h0 : c ≠ 0) (h1 : c ≠ 1) :
    sleepsUntilLaunch (afterFirstLaunch (runAux prev env
      ((ChildBehavior.exits c, InterruptPoint.noInterrupt) ::
       (b₂, InterruptPoint.noInterrupt) :: rest)).1) = 5 ∧
    Event.sleep 3 ∈ afterFirstLaunch (runAux prev env
      ((ChildBehavior.exits c, InterruptPoint.noInterrupt) ::
       (b₂, InterruptPoint.noInterrupt) :: rest)).1 ∧
    Event.sleep 2 ∈ afterFirstLaunch (runAux prev env
      ((ChildBehavior.exits c, InterruptPoint.noInterrupt) ::
       (b₂, InterruptPoint.noInterrupt) :: rest)).1 := by
  have hd : (iterate prev env (ChildBehavior.exits c) InterruptPoint.noInterrupt).2 =
      Decision.continueLoop := by simp [iterate, h0, h1]
  have hs : (iterate prev env (ChildBehavior.exits c) InterruptPoint.noInterrupt).1 =
      prePause (prev + 1) ++ Event.launch env ::
        [Event.printMsg (restartingMsg c), Event.printMsg crashWaitMsg,
         Event.sleep 3] := by
    simp [iterate, h0, h1]
  obtain ⟨t, ht⟩ := afterFirstLaunch_two_iter prev env (ChildBehavior.exits c) b₂ rest
    [Event.printMsg (restartingMsg c), Event.printMsg crashWaitMsg,
     Event.sleep 3] hs hd
  refine ⟨?_, ?_, ?_⟩
  · have h := delay_two_iter prev env (ChildBehavior.exits c) b₂ rest
      [Event.printMsg (restartingMsg c), Event.printMsg crashWaitMsg,
       Event.sleep 3] hs (by simp [launches]) hd
    rw [h]
    simp [sleeps]
  · rw [ht]; simp
  · rw [ht]
    have hpre : Event.sleep 2 ∈ prePause (prev + 1 + 1) := by
      simp [prePause]
    simp [hpre]

/-- C10 witness: the exact 5-second pause at exit code 137. -/
theorem C10_crash_total_pause_witness :
    ((137 : Int) ≠ 0 ∧ (137 : Int) ≠ 1) ∧
    sleepsUntilLaunch (afterFirstLaunch (runAux 0 []
      ((ChildBehavior.exits 137, InterruptPoint.noInterrupt) ::
       (ChildBehavior.exits 0, InterruptPoint.noInterrupt) :: [])).1) = 5 :=
  ⟨by decide,
    (C10_crash_total_pause 0 [] 137 (ChildBehavior.exits 0) []
      (by decide) (by decide)).1⟩

/-- The shutdown message is not a restarting notice: their first
characters differ. -/
lemma shutdownMsg_ne_restartNotice (rc : Nat) :
    shutdownMsg ≠ restartNoticeMsg rc := by
  intro h
  have hd := congrArg String.data h
  simp only [restartNoticeMsg, String.data_append] at hd
  have h1 : (String.data shutdownMsg).head? = some 'C' := rfl
  rw [hd] at h1
  have h2 : ((String.data "RESTARTING BOT (restart " ++
      String.data (toString rc)) ++ String.data ")").head? = some 'R' := rfl
  rw [h2] at h1
  exact absurd h1 (by decide)

/-- The shutdown message is not an error message: their first characters
differ. -/
lemma shutdownMsg_ne_errorMsg (msg : String) :
    shutdownMsg ≠ errorMsgHead ++ msg := by
  intro h
  have hd := congrArg String.data h
  simp only [errorMsgHead, String.data_append] at hd
  have h1 : (String.data shutdownMsg).head? = some 'C' := rfl
  rw [hd] at h1
  have h2 : (String.data "Error running bot: " ++ String.data msg).head? =
      some 'E' := rfl
  rw [h2] at h1
  exact absurd h1 (by decide)

/-- C4 as stated is false at a concrete input: a KeyboardInterrupt arriving
during the 10-second fault-recovery pause (line 70) is raised inside the
`except Exception` handler, which the `except KeyboardInterrupt` clause of
the same `try` statement does not cover; the supervisor terminates with an
uncaught exception, printing no shutdown message and not exiting via
`sys.exit(0)`. -/
theorem C4_fault_pause_counterexample :
    (iterate 0 [] (ChildBehavior.fault "boom") InterruptPoint.atFaultPause).2 =
      Decision.uncaught ∧
    (iterate 0 [] (ChildBehavior.fault "boom") InterruptPoint.atFaultPause).2 ≠
      Decision.sysExit 0 ∧
    Event.printMsg shutdownMsg ∉
      (iterate 0 [] (ChildBehavior.fault "boom") InterruptPoint.atFaultPause).1 := by
  decide

/-- C4 amended: an interrupt arriving while blocked waiting on the child,
during the 2-second inter-restart pause, or during the 3-second crash pause
makes the supervisor print the shutdown message and exit with status 0; an
interrupt during the 10-second fault-recovery pause instead propagates
uncaught out of the loop and the supervisor does not shut down gracefully. -/
theorem C4_interrupt_windows (prev : Nat) (env : Env) (beh : ChildBehavior)
    (msg : String) (c : Int) (h0 : c ≠ 0) (h1 : c ≠ 1) :
    ((iterate prev env beh InterruptPoint.atWait).2 = Decision.sysExit 0 ∧
      Event.printMsg shutdownMsg ∈ (iterate prev env beh InterruptPoint.atWait).1) ∧
    ((iterate (prev + 1) env beh InterruptPoint.atRestartPause).2 =
        Decision.sysExit 0 ∧
      Event.printMsg shutdownMsg ∈
        (iterate (prev + 1) env beh InterruptPoint.atRestartPause).1) ∧
    ((iterate prev env (ChildBehavior.exits c) InterruptPoint.atCrashPause).2 =
        Decision.sysExit 0 ∧
      Event.printMsg shutdownMsg ∈
        (iterate prev env (ChildBehavior.exits c) InterruptPoint.atCrashPause).1) ∧
    ((iterate prev env (ChildBehavior.fault msg) InterruptPoint.atFaultPause).2 =
        Decision.uncaught ∧
      Event.printMsg shutdownMsg ∉
        (iterate prev env (ChildBehavior.fault msg) InterruptPoint.atFaultPause).1) := by
  refine ⟨⟨by simp [iterate], ?_⟩, ⟨by simp [iterate], by simp [iterate]⟩,
    ⟨by simp [iterate, h0, h1], ?_⟩, ⟨by simp [iterate], ?_⟩⟩
  · by_cases hp : prev + 1 > 1 <;> simp [iterate, prePause, hp]
  · by_cases hp : prev + 1 > 1 <;> simp [iterate, prePause, hp, h0, h1]
  · by_cases hp : prev + 1 > 1
    · simp [iterate, prePause, hp]
      exact ⟨shutdownMsg_ne_restartNotice _,
        shutdownMsg_ne_errorMsg msg, by decide⟩
    · simp [iterate, prePause, hp]
      exact ⟨shutdownMsg_ne_errorMsg msg, by decide⟩

/-- C4 witness: the graceful window at the child wait and the non-graceful
fault-recovery window, at concrete inputs. -/
theorem C4_interrupt_windows_witness :
    ((2 : Int) ≠ 0 ∧ (2 : Int) ≠ 1) ∧
    (iterate 0 [] (ChildBehavior.exits 0) InterruptPoint.atWait).2 =
      Decision.sysExit 0 ∧
    (iterate 0 [] (ChildBehavior.fault "x") InterruptPoint.atFaultPause).2 =
      Decision.uncaught :=
  ⟨by decide,
    (C4_interrupt_windows 0 [] (ChildBehavior.exits 0) "x" 2
      (by decide) (by decide)).1.1,
    (C4_interrupt_windows 0 [] (ChildBehavior.exits 0) "x" 2
      (by decide) (by decide)).2.2.2.1⟩

/-- C5: a fault raised while spawning or waiting on the child does not end
the supervisor: the loop body prints an error message carrying the fault
description, sleeps 10 seconds, falls through, and (at least 10 seconds
after the fault) another launch attempt follows; the fault never escapes
the loop. -/
theorem C5_fault_recovery (prev : Nat) (env : Env) (msg : String)
    (b₂ : ChildBehavior) (rest : List (ChildBehavior × InterruptPoint)) :
    (iterate prev env (ChildBehavior.fault msg) InterruptPoint.noInterrupt).2 =
      Decision.continueLoop ∧
    Event.printMsg (errorMsgHead ++ msg) ∈
      (iterate prev env (ChildBehavior.fault msg) InterruptPoint.noInterrupt).1 ∧
    Event.sleep 10 ∈
      (iterate prev env (ChildBehavior.fault msg) InterruptPoint.noInterrupt).1 ∧
    10 ≤ sleepsUntilLaunch (afterFirstLaunch (runAux prev env
      ((ChildBehavior.fault msg, InterruptPoint.noInterrupt) ::
       (b₂, InterruptPoint.noInterrupt) :: rest)).1) ∧
    Event.launch env ∈ afterFirstLaunch (runAux prev env
      ((ChildBehavior.fault msg, InterruptPoint.noInterrupt) ::
       (b₂, InterruptPoint.noInterrupt) :: rest)).1 := by
  have hd : (iterate prev env (ChildBehavior.fault msg)
      InterruptPoint.noInterrupt).2 = Decision.continueLoop := by simp [iterate]
  have hs : (iterate prev env (ChildBehavior.fault msg)
      InterruptPoint.noInterrupt).1 =
      prePause (prev + 1) ++ Event.launch env ::
        [Event.printMsg (errorMsgHead ++ msg), Event.printMsg retryMsg,
         Event.sleep 10] := by
    simp [iterate]
  refine ⟨hd, ?_, ?_, ?_, ?_⟩
  · rw [hs]; simp
  · rw [hs]; simp
  · have h := delay_two_iter prev env (ChildBehavior.fault msg) b₂ rest
      [Event.printMsg (errorMsgHead ++ msg), Event.printMsg retryMsg,
       Event.sleep 10] hs (by simp [launches]) hd
    rw [h]
    simp [sleeps]
  · exact launch_after_first prev env (ChildBehavior.fault msg) b₂ rest
      [Event.printMsg (errorMsgHead ++ msg), Event.printMsg retryMsg,
       Event.sleep 10] hs hd

/-- C6: the loop body breaks out of the loop only on a clean child exit,
ends the process only when an interrupt arrived, and on any interrupt-free
iteration whose child does not exit 0 it falls through; hence a whole run
fed any script of interrupt-free, non-clean exits and faults is still
looping when the script runs out. -/
theorem C6_termination_paths (prev : Nat) (env : Env) (beh : ChildBehavior)
    (ip : InterruptPoint) (environAt : Nat → Env)
    (inputs : List (ChildBehavior × InterruptPoint)) :
    ((iterate prev env beh ip).2 = Decision.exitLoop →
      beh = ChildBehavior.exits 0) ∧
    ((iterate prev env beh ip).2 = Decision.sysExit 0 ∨
        (iterate prev env beh ip).2 = Decision.uncaught →
      ip ≠ InterruptPoint.noInterrupt) ∧
    (ip = InterruptPoint.noInterrupt → beh ≠ ChildBehavior.exits 0 →
      (iterate prev env beh ip).2 = Decision.continueLoop) ∧
    ((∀ p ∈ inputs, p.2 = InterruptPoint.noInterrupt ∧
        p.1 ≠ ChildBehavior.exits 0) →
      (runTrace environAt inputs).2 = none) := by
  refine ⟨iterate_exitLoop_imp prev env beh ip,
    iterate_terminal_imp prev env beh ip, ?_, ?_⟩
  · intro hip hb
    subst hip
    exact iterate_decision_continue prev env beh hb
  · intro h
    exact runAux_none_of _ inputs h 0

/-- C6 witness: a crash exit with no interrupt falls through, and a run of
one such iteration is still looping. -/
theorem C6_termination_paths_witness :
    (iterate 0 [] (ChildBehavior.exits 5) InterruptPoint.noInterrupt).2 =
      Decision.continueLoop ∧
    (runTrace (fun _ => [])
      [(ChildBehavior.exits 5, InterruptPoint.noInterrupt)]).2 = none :=
  ⟨(C6_termination_paths 0 [] (ChildBehavior.exits 5) InterruptPoint.noInterrupt
      (fun _ => []) []).2.2.1 rfl (by decide),
   (C6_termination_paths 0 [] (ChildBehavior.exits 5) InterruptPoint.noInterrupt
      (fun _ => []) [(ChildBehavior.exits 5, InterruptPoint.noInterrupt)]).2.2.2
      (by decide)⟩

/-- A process environment that changes between iteration 0 and iteration 1,
used to test whether later launches see the change. -/
def environSeq : Nat → Env :=
  fun i => if i = 0 then [("X", "a")] else [("X", "b")]

/-- C7 as stated is false at a concrete run: the overlay is built once from
the startup environment (lines 28-29, outside the loop), so when the live
environment changes between iterations the second launch still receives
the startup snapshot plus the marker, not an overlay recomputed from the
current environment. -/
theorem C7_overlay_not_recomputed_counterexample :
    (launches (runTrace environSeq
      [(ChildBehavior.exits 1, InterruptPoint.noInterrupt),
       (ChildBehavior.exits 0, InterruptPoint.noInterrupt)]).1).get? 1 =
      some (mkOverlay (environSeq 0)) ∧
    environSeq 1 ≠ environSeq 0 ∧
    envGet "X" (mkOverlay (environSeq 0)) = some "a" ∧
    envGet "X" (environSeq 1) = some "b" ∧
    mkOverlay (environSeq 0) ≠ mkOverlay (environSeq 1) := by
  decide

/-- C7 amended: the overlay is computed exactly once, at startup, from the
environment snapshot of that moment plus the marker, and every launch of
the run receives that same mapping unchanged — it is never mutated across
iterations, and changes to the supervisor environment after startup are
not reflected in later launches. -/
theorem C7_overlay_constant (environAt : Nat → Env)
    (inputs : List (ChildBehavior × InterruptPoint)) :
    ∀ e ∈ launches (runTrace environAt inputs).1, e = mkOverlay (environAt 0) := by
  intro e he
  exact launches_runAux (mkOverlay (environAt 0)) inputs 0 e he

/-- C7 witness: in the two-iteration run over the changing environment,
the concrete first-launch mapping equals the startup overlay. -/
theorem C7_overlay_constant_witness :
    [("X", "a"), ("BOT_AUTO_RESTART", "1")] = mkOverlay (environSeq 0) :=
  C7_overlay_constant environSeq
    [(ChildBehavior.exits 1, InterruptPoint.noInterrupt),
     (ChildBehavior.exits 0, InterruptPoint.noInterrupt)]
    [("X", "a"), ("BOT_AUTO_RESTART", "1")] (by decide)

/-- C8: every launch of every run passes an environment in which the
marker key BOT_AUTO_RESTART is bound to the fixed value 1, whatever the
startup environment, the script of child behaviors, and the iteration
count. -/
theorem C8_marker_always_set (environAt : Nat → Env)
    (inputs : List (ChildBehavior × InterruptPoint)) :
    ∀ e ∈ launches (runTrace environAt inputs).1,
      envGet "BOT_AUTO_RESTART" e = some "1" := by
  intro e he
  rw [launches_runAux (mkOverlay (environAt 0)) inputs 0 e he]
  simp [mkOverlay, envGet_envSet_self]

/-- C8 witness: the marker is bound to 1 in the concrete launch mapping of
a one-iteration run. -/
theorem C8_marker_always_set_witness :
    envGet "BOT_AUTO_RESTART" [("X", "a"), ("BOT_AUTO_RESTART", "1")] =
      some "1" :=
  C8_marker_always_set environSeq
    [(ChildBehavior.exits 0, InterruptPoint.noInterrupt)]
    [("X", "a"), ("BOT_AUTO_RESTART", "1")] (by decide)

/-- C9 as stated is false at a concrete input: two runs of the loop body
that differ only in the restart counter (0 versus 1) take different delays
— the first iteration skips the 2-second inter-restart pause, every later
one takes it — even though the launch and the decision agree. -/
theorem C9_counter_affects_delay_counterexample :
    sleeps (iterate 0 [] (ChildBehavior.exits 1) InterruptPoint.noInterrupt).1 ≠
      sleeps (iterate 1 [] (ChildBehavior.exits 1) InterruptPoint.noInterrupt).1 ∧
    sleeps (iterate 0 [] (ChildBehavior.exits 1) InterruptPoint.noInterrupt).1 = [] ∧
    sleeps (iterate 1 [] (ChildBehavior.exits 1) InterruptPoint.noInterrupt).1 = [2] ∧
    launches (iterate 0 [] (ChildBehavior.exits 1) InterruptPoint.noInterrupt).1 =
      launches (iterate 1 [] (ChildBehavior.exits 1) InterruptPoint.noInterrupt).1 ∧
    (iterate 0 [] (ChildBehavior.exits 1) InterruptPoint.noInterrupt).2 =
      (iterate 1 [] (ChildBehavior.exits 1) InterruptPoint.noInterrupt).2 := by
  decide

/-- C9 amended: beyond log text, the restart counter influences only
whether the one-time 2-second inter-restart pause is taken (it is skipped
exactly on the first iteration): any two loop-body runs that differ only
in the counter, both counters being at least 1, perform the same launch,
the same delays, and the same relaunch/stop decision; and with no
interrupt the relaunch/stop decision is identical for all counter values,
so no maximum-restart cutoff exists. -/
theorem C9_counter_only_logging (a b : Nat) (env : Env) (beh : ChildBehavior)
    (ip : InterruptPoint) :
    launches (iterate (a + 1) env beh ip).1 =
      launches (iterate (b + 1) env beh ip).1 ∧
    sleeps (iterate (a + 1) env beh ip).1 =
      sleeps (iterate (b + 1) env beh ip).1 ∧
    (iterate (a + 1) env beh ip).2 = (iterate (b + 1) env beh ip).2 ∧
    (iterate a env beh InterruptPoint.noInterrupt).2 =
      (iterate b env beh InterruptPoint.noInterrupt).2 := by
  have hlast : ∀ p q : Nat, (iterate p env beh InterruptPoint.noInterrupt).2 =
      (iterate q env beh InterruptPoint.noInterrupt).2 := by
    intro p q
    rcases beh with c | msg
    · by_cases h0 : c = 0
      · simp [iterate, h0]
      · by_cases h1 : c = 1 <;> simp [iterate, h0, h1]
    · simp [iterate]
  refine ⟨?_, ?_, ?_, hlast a b⟩ <;>
    cases ip <;>
    rcases beh with c | msg <;>
    first
    | (by_cases h0 : c = 0
       · simp [iterate, prePause, launches_append, sleeps_append, launches, sleeps, h0]
       · by_cases h1 : c = 1 <;>
           simp [iterate, prePause, launches_append, sleeps_append, launches,
             sleeps, h0, h1])
    | simp [iterate, prePause, launches_append, sleeps_append, launches, sleeps]

end AutoRestart
